import Mathlib

/-!
Shallow embedding of the flow aggregation and signal-derivation engine of
the FlowTracker repository (src/multi_security.py, src/single_security.py).

Per-date mappings (Python dicts `date string -> value`) are modelled as
association lists `List (String × Rat)`; Python floats are modelled as
rationals, with the float special values (NaN from 0/0 or a one-point
rolling std, ±inf from x/0) tracked explicitly where the code's semantics
depend on them.  Python string operations (`upper`, `in`, `split`,
`startswith`, `endswith`) are modelled as character-list operations, which
coincide with the Python ones on the ASCII ticker keys the code handles.
-/

namespace FlowTracker

/-- Python `s.upper()`, per character (ASCII semantics). -/
def sUpper (s : String) : String := ⟨s.data.map Char.toUpper⟩

/-- Python `str.split(sep)` for a one-character separator, on char lists. -/
def splitChar (sep : Char) : List Char → List (List Char)
  | [] => [[]]
  | c :: t =>
    match splitChar sep t with
    | [] => [[]]
    | h :: r => if c = sep then [] :: h :: r else (c :: h) :: r

/-- Python `key.split('_')[-1]` (the split list is never empty). -/
def lastSeg (key : String) : String := ⟨(splitChar '_' key.data).getLastD key.data⟩

/-- Python `s.endswith(suf)`. -/
def sEndsWith (s suf : String) : Bool := suf.data.isSuffixOf s.data

/-- Python `s.startswith(pre)`. -/
def sStartsWith (s pre : String) : Bool := pre.data.isPrefixOf s.data

/-- Substring test on character lists, the semantics of Python `pat in s`. -/
def subList (pat : List Char) : List Char → Bool
  | [] => pat.isEmpty
  | c :: t => pat.isPrefixOf (c :: t) || subList pat t

/-- Python `pat in s` for strings (substring containment). -/
def strContains (s pat : String) : Bool := subList pat.data s.data

/-- `ticker_key.split('_')[-1] if '_' in ticker_key else ticker_key`. -/
def baseTicker (key : String) : String :=
  if key.data.contains '_' then lastSeg key else key

/-- A per-date mapping `date string -> value` (a Python dict). -/
abbrev DateMap := List (String × Rat)

/-- A raw fetch result: mapping `raw ticker key -> per-date mapping`. -/
abbrev RawSeries := List (String × DateMap)

/-- `m.get(d, 0)` — dictionary lookup with default 0. -/
def dmGet (m : DateMap) (d : String) : Rat :=
  (List.lookup d m).getD 0

/-- The key set of a per-date mapping, as a list. -/
def dmKeys (m : DateMap) : List String :=
  m.map Prod.fst

/-- `records[date] = records.get(date, 0) + value` on an association list:
update in place if the key is present, append otherwise. -/
def addTo : DateMap → String → Rat → DateMap
  | [], d, v => [(d, v)]
  | (k, x) :: t, d, v => if k = d then (k, x + v) :: t else (k, x) :: addTo t d v

/-- Python `set(a.keys()) | set(b.keys())`, as a duplicate-free list. -/
def unionKeys (a b : DateMap) : List String :=
  (dmKeys a ++ dmKeys b).dedup

/-- The 4-clause raw-key/ticker matching rule used on the options
extraction paths of multi_security.py (`calculate_net_premium_multi`
lines 1082-1089, `calculate_combined_flow_multi` lines 192-198);
`targetU` is the pre-uppercased target ticker. -/
def optionsKeyMatches (key targetU : String) : Bool :=
  sUpper (baseTicker key) == targetU ||
  sUpper key == targetU ||
  sEndsWith (sUpper key) ("_" ++ targetU) ||
  sStartsWith (sUpper key) (targetU ++ "_")

/-- Retail-key matching in multi_security.py `calculate_combined_flow_multi`
(lines 177-183): exact case-insensitive equality only. -/
def retailMatchMulti (key target : String) : Bool :=
  sUpper key == sUpper target

/-- Retail-key matching in single_security.py (`display_combined_flow_chart`
and the retail chart paths): `ticker.upper() == ticker_key.upper() or
ticker.upper() in ticker_key.upper()`. -/
def retailMatchSingle (key target : String) : Bool :=
  sUpper target == sUpper key || strContains (sUpper key) (sUpper target)

/-- Options-key matching in single_security.py
(`display_ma_ratio_options_chart`, `display_combined_flow_chart`):
`base_ticker.upper() == target_upper` only. -/
def optionsKeyMatchesSingle (key targetU : String) : Bool :=
  sUpper (baseTicker key) == targetU

/-- Sum every matching raw key's per-date values into one accumulator
(the reconciliation loops of `calculate_net_premium_multi` and
`calculate_combined_flow_multi`). -/
def aggregate (src : RawSeries) (targetU : String) : DateMap :=
  src.foldl
    (fun acc kv =>
      if optionsKeyMatches kv.1 targetU then
        kv.2.foldl (fun a dv => addTo a dv.1 dv.2) acc
      else acc)
    []

/-- A net-premium record `{date, ticker, value, call_value, put_value}`. -/
structure NetRec where
  date : String
  ticker : String
  value : Rat
  call_value : Rat
  put_value : Rat
deriving DecidableEq, Repr

/-- The per-ticker union-with-zero-fill of `calculate_net_premium_multi`
(multi_security.py lines 1111-1124): union the call and put date sets and
emit `value = call.get(d,0) - put.get(d,0)` per date. -/
def netFromMaps (callM putM : DateMap) (t : String) : List NetRec :=
  (unionKeys callM putM).map fun d =>
    ⟨d, t, dmGet callM d - dmGet putM d, dmGet callM d, dmGet putM d⟩

/-- `calculate_net_premium_multi(call_data, put_data, ticker_list)`
(multi_security.py lines 1074-1126). -/
def calculate_net_premium_multi (callData putData : RawSeries)
    (tickerList : List String) : List NetRec :=
  tickerList.flatMap fun t =>
    netFromMaps (aggregate callData (sUpper t)) (aggregate putData (sUpper t)) t

/-- The spec's `reconcileUnion(A, B, f)` (spec §4.2), the generalisation
over the combine function of the inline union-with-zero-fill pattern of
multi_security.py lines 1111-1124 / single_security.py lines 612-622. -/
def reconcileUnion (a b : DateMap) (f : Rat → Rat → Rat) : DateMap :=
  (unionKeys a b).map fun d => (d, f (dmGet a d) (dmGet b d))

/-- A combined-flow record `{date, ticker, value}`. -/
structure FlowRec where
  date : String
  ticker : String
  value : Rat
deriving DecidableEq, Repr

/-- The retail extraction of `calculate_combined_flow_multi` (lines
177-183): the first raw entry whose key equals the target ticker
case-insensitively, else the empty mapping. -/
def retailForMulti (retailFlow : RawSeries) (target : String) : DateMap :=
  match retailFlow.find? (fun kv => retailMatchMulti kv.1 target) with
  | some kv => kv.2
  | none => []

/-- `calculate_combined_flow_multi(retail_flow, small_call, small_put,
large_call, large_put, ticker_list)` (multi_security.py lines 169-256):
per target ticker, reconcile the five component mappings, union their
date sets, and emit `retail + (small_call - small_put) +
(large_call - large_put)` per date. -/
def calculate_combined_flow_multi (retailFlow smallCall smallPut largeCall largePut : RawSeries)
    (tickerList : List String) : List FlowRec :=
  tickerList.flatMap fun t =>
    let tU := sUpper t
    let retailRecords := retailForMulti retailFlow t
    let scA := aggregate smallCall tU
    let spA := aggregate smallPut tU
    let lcA := aggregate largeCall tU
    let lpA := aggregate largePut tU
    let allDates := (dmKeys retailRecords ++ dmKeys scA ++ dmKeys spA ++
                     dmKeys lcA ++ dmKeys lpA).dedup
    allDates.map fun d =>
      ⟨d, t, dmGet retailRecords d + (dmGet scA d - dmGet spA d) +
             (dmGet lcA d - dmGet lpA d)⟩

/-- Arithmetic mean of a list of values (`pandas .mean()`). -/
def mean (l : List Rat) : Rat := l.sum / l.length

/-- Sample variance with `ddof=1` (the square of `pandas .std()`). -/
def sampleVar (l : List Rat) : Rat :=
  ((l.map fun x => (x - mean l) ^ 2).sum) / ((l.length : Rat) - 1)

/-- The trailing window of width `w` ending at index `i` with
`min_periods=1` (`pandas .rolling(window=w, min_periods=1)`). -/
def windowSlice (xs : List Rat) (w i : Nat) : List Rat :=
  (xs.take (i + 1)).drop (i + 1 - w)

/-- The value of a float expression that may be NaN or ±infinity:
what `(x - mean) / std` can produce in pandas. -/
inductive FVal where
  | fin (q : Rat)
  | pinf
  | ninf
deriving DecidableEq, Repr

/-- One rolling Z-score entry after `fillna(0)`: the std is `none` when the
window held a single observation (sample std of one point is NaN); float
division then gives NaN (→ 0 via fillna) when the std is NaN or when
`0/0`, and ±infinity (not replaced by fillna) when `x/0` with `x ≠ 0`. -/
def zEntry (diff : Rat) (std : Option Rat) : FVal :=
  match std with
  | none => .fin 0
  | some s =>
    if s = 0 then
      if diff = 0 then .fin 0 else if diff > 0 then .pinf else .ninf
    else .fin (diff / s)

/-- `calculate_z_scores(data_series, window)` (multi_security.py lines
1128-1143, single_security.py lines 1218-1233), parameterised by the real
square-root function `sq` used for the standard deviation.  The Python
`if window and len(data_series) >= window` reads a falsy window (`None`
or 0) as `window.getD 0 = 0`.  A series of
length ≤ 1 yields zeros; with a truthy `window` and enough data, rolling
mean/std with `min_periods=1` and `fillna(0)`; otherwise global mean/std,
with all zeros when the global std is exactly 0. -/
def calculate_z_scores (sq : Rat → Rat) (xs : List Rat) (window : Option Nat) :
    List FVal :=
  if xs.length ≤ 1 then List.replicate xs.length (.fin 0)
  else
    let w := window.getD 0
    if w ≠ 0 ∧ w ≤ xs.length then
      (List.range xs.length).map fun i =>
        let win := windowSlice xs w i
        let sd : Option Rat := if 2 ≤ win.length then some (sq (sampleVar win)) else none
        zEntry (xs.getD i 0 - mean win) sd
    else
      let m := mean xs
      let sd := sq (sampleVar xs)
      if sd = 0 then List.replicate xs.length (.fin 0)
      else xs.map fun x => .fin ((x - m) / sd)

/-- The MA-ratio pipeline (single_security.py lines 437-440 and 612-622,
multi_security.py lines 375-378): 5-period over 21-period trailing means
(`min_periods=1`), `replace(0, nan)` on the denominator, then `fillna(1)`.
`replaceZeroNan`, `divNan` and `fillna1` model the three pandas steps. -/
def replaceZeroNan (x : Rat) : Option Rat := if x = 0 then none else some x

/-- Float division of a finite value by a possibly-NaN value. -/
def divNan (a : Rat) : Option Rat → Option Rat
  | none => none
  | some b => some (a / b)

/-- `fillna(1)`. -/
def fillna1 : Option Rat → Rat
  | none => 1
  | some v => v

/-- `ma_5 / ma_21.replace(0, nan)` then `fillna(1)`, per index. -/
def maRatio (xs : List Rat) : List Rat :=
  (List.range xs.length).map fun i =>
    fillna1 (divNan (mean (windowSlice xs 5 i)) (replaceZeroNan (mean (windowSlice xs 21 i))))

/-- `momentumSignal` from the latest MA ratio
(single_security.py `display_ma_ratio_metrics` lines 501-508; the same
comparison structure, with abbreviated labels, appears in
multi_security.py `display_statistics` lines 383-390 and
`generate_flow_table_html` lines 787-794). -/
def momentumSignal (r : Rat) : String :=
  if r > 3/2 then "Strong Uptrend"
  else if r ≥ 1 then "Uptrend"
  else if r ≥ 1/2 then "Downtrend"
  else "Strong Downtrend"

/-- `classify_activity_level` (multi_security.py lines 1145-1156,
single_security.py lines 1235-1246): label and emoji from a Z-score. -/
def classify_activity_level (z : Rat) : String × String :=
  if z < -3/2 then ("Extreme Light", "RED")
  else if -3/2 ≤ z ∧ z < -1/2 then ("Light", "YELLOW")
  else if -1/2 ≤ z ∧ z < 1/2 then ("Neutral", "GREEN")
  else if 1/2 ≤ z ∧ z < 3/2 then ("Elevated", "ORANGE")
  else ("Crowded", "FIRE")

/-- `(np.sum(values <= latest) / len(values)) * 100`
(multi_security.py line 367, single_security.py line 1463). -/
def percentile (values : List Rat) (latest : Rat) : Rat :=
  (((values.filter (fun v => v ≤ latest)).length : Rat) / (values.length : Rat)) * 100

/-- `dict.update(data)`: keys of `b` override those of `a`. -/
def dictUpdate (a b : RawSeries) : RawSeries :=
  a.filter (fun kv => (List.lookup kv.1 b).isNone) ++ b

/-- `fetch_stock_flow_data(tickers, from_date, to_date, transaction_type)`
(multi_security.py lines 971-1002), with the per-ticker HTTP interaction
abstracted as an oracle `http : ticker -> Option response` (`none` models
a request exception, timeout or non-200 status; `some r` a parsed JSON
body, possibly empty).  A falsy (empty) body is skipped; every per-ticker
outcome is swallowed and the status returned for the `combined`
transaction type is unconditionally `"success"`. -/
def fetch_stock_flow_data (token : String) (tickers : List String)
    (transactionType : String) (http : String → Option RawSeries) :
    RawSeries × String :=
  if token = "" then ([], "No token provided")
  else if transactionType = "combined" then
    let combinedData := tickers.foldl
      (fun acc t =>
        match http t with
        | some data => if data ≠ [] then dictUpdate acc data else acc
        | none => acc)
      []
    (combinedData, "success")
  else ([], "Not implemented")

end FlowTracker


namespace FlowTracker

/-! ### Helper lemmas -/

/-- A fold that ignores its list element is the identity on the accumulator. -/
theorem foldl_const {α β : Type} (l : List β) (acc : α) :
    l.foldl (fun a _ => a) acc = acc := by
  induction l generalizing acc with
  | nil => rfl
  | cons x t ih => simp only [List.foldl_cons]; exact ih acc

/-- C4: the claim places `r = 1.5` in the "Strong Uptrend" band, but all
three classification sites compare with strict `>` (and the source comment
documents `>1.5 Strong Up`), so `momentumSignal (3/2) = "Uptrend"`. -/
theorem C4_counterexample :
    momentumSignal (3/2) = "Uptrend" ∧
    ¬ momentumSignal (3/2) = "Strong Uptrend" := by
  constructor <;> with_unfolding_all decide

/-- C4 (amended): the momentum classification returns "Strong Uptrend"
exactly when r > 1.5, "Uptrend" exactly when 1.0 ≤ r ≤ 1.5, "Downtrend"
exactly when 0.5 ≤ r < 1.0, and "Strong Downtrend" exactly when r < 0.5;
in particular r = 1.5 and r = 1.0 classify as "Uptrend" and r = 0.5 as
"Downtrend". -/
theorem C4_theorem :
    (∀ r : Rat,
      (momentumSignal r = "Strong Uptrend" ↔ 3/2 < r) ∧
      (momentumSignal r = "Uptrend" ↔ 1 ≤ r ∧ r ≤ 3/2) ∧
      (momentumSignal r = "Downtrend" ↔ 1/2 ≤ r ∧ r < 1) ∧
      (momentumSignal r = "Strong Downtrend" ↔ r < 1/2)) ∧
    momentumSignal (3/2) = "Uptrend" ∧
    momentumSignal 1 = "Uptrend" ∧
    momentumSignal (1/2) = "Downtrend" := by
  refine ⟨fun r => ?_, by with_unfolding_all decide, by with_unfolding_all decide,
    by with_unfolding_all decide⟩
  simp only [momentumSignal]
  split_ifs with h1 h2 h3
  · exact ⟨iff_of_true rfl h1,
      iff_of_false (by decide) (fun h => by linarith [h.2]),
      iff_of_false (by decide) (fun h => by linarith [h.2]),
      iff_of_false (by decide) (fun h => by linarith)⟩
  · exact ⟨iff_of_false (by decide) (fun h => by linarith),
      iff_of_true rfl ⟨h2, by linarith⟩,
      iff_of_false (by decide) (fun h => by linarith [h.2]),
      iff_of_false (by decide) (fun h => by linarith)⟩
  · exact ⟨iff_of_false (by decide) (fun h => by linarith),
      iff_of_false (by decide) (fun h => by linarith [h.1]),
      iff_of_true rfl ⟨h3, by linarith⟩,
      iff_of_false (by decide) (fun h => by linarith)⟩
  · exact ⟨iff_of_false (by decide) (fun h => by linarith),
      iff_of_false (by decide) (fun h => by linarith [h.1]),
      iff_of_false (by decide) (fun h => by linarith [h.1]),
      iff_of_true rfl (by linarith)⟩

/-- C5: the activity classification returns "Extreme Light" exactly when
z < -1.5, "Light" exactly when -1.5 ≤ z < -0.5, "Neutral" exactly when
-0.5 ≤ z < 0.5, "Elevated" exactly when 0.5 ≤ z < 1.5, and "Crowded"
exactly when z ≥ 1.5; a boundary value belongs to the higher band:
z = -1.5 is "Light" and z = 1.5 is "Crowded". -/
theorem C5_theorem :
    (∀ z : Rat,
      ((classify_activity_level z).1 = "Extreme Light" ↔ z < -3/2) ∧
      ((classify_activity_level z).1 = "Light" ↔ -3/2 ≤ z ∧ z < -1/2) ∧
      ((classify_activity_level z).1 = "Neutral" ↔ -1/2 ≤ z ∧ z < 1/2) ∧
      ((classify_activity_level z).1 = "Elevated" ↔ 1/2 ≤ z ∧ z < 3/2) ∧
      ((classify_activity_level z).1 = "Crowded" ↔ 3/2 ≤ z)) ∧
    (classify_activity_level (-3/2)).1 = "Light" ∧
    (classify_activity_level (3/2)).1 = "Crowded" := by
  refine ⟨fun z => ?_, by with_unfolding_all decide, by with_unfolding_all decide⟩
  simp only [classify_activity_level]
  split_ifs with h1 h2 h3 h4
  · exact ⟨iff_of_true rfl h1,
      iff_of_false (by decide) (fun h => by linarith [h.1]),
      iff_of_false (by decide) (fun h => by linarith [h.1]),
      iff_of_false (by decide) (fun h => by linarith [h.1]),
      iff_of_false (by decide) (fun h => by linarith)⟩
  · exact ⟨iff_of_false (by decide) (fun h => by linarith [h2.1]),
      iff_of_true rfl h2,
      iff_of_false (by decide) (fun h => by linarith [h.1, h2.2]),
      iff_of_false (by decide) (fun h => by linarith [h.1, h2.2]),
      iff_of_false (by decide) (fun h => by linarith [h2.2])⟩
  · exact ⟨iff_of_false (by decide) (fun h => by linarith [h3.1]),
      iff_of_false (by decide) (fun h => by linarith [h.2, h3.1]),
      iff_of_true rfl h3,
      iff_of_false (by decide) (fun h => by linarith [h.1, h3.2]),
      iff_of_false (by decide) (fun h => by linarith [h3.2])⟩
  · exact ⟨iff_of_false (by decide) (fun h => by linarith [h4.1]),
      iff_of_false (by decide) (fun h => by linarith [h.2, h4.1]),
      iff_of_false (by decide) (fun h => by linarith [h.2, h4.1]),
      iff_of_true rfl h4,
      iff_of_false (by decide) (fun h => by linarith [h4.2])⟩
  · push_neg at h1 h2 h3 h4
    have hz : 3/2 ≤ z := by
      rcases lt_or_le z (-1/2) with hlt | hge
      · linarith [h2 h1]
      · rcases lt_or_le z (1/2) with hlt2 | hge2
        · linarith [h3 hge]
        · exact h4 hge2
    exact ⟨iff_of_false (by decide) (fun h => by linarith),
      iff_of_false (by decide) (fun h => by linarith [h.2]),
      iff_of_false (by decide) (fun h => by linarith [h.2]),
      iff_of_false (by decide) (fun h => by linarith [h.2]),
      iff_of_true rfl hz⟩

end FlowTracker

namespace FlowTracker

/-- C8: the claim asserts the substring rule holds on every extraction
path, but the multi-security retail path (`calculate_combined_flow_multi`
lines 177-183) matches only by exact case-insensitive equality: the raw
key "OTM_small_AAPL" contains "AAPL" as a substring yet does not match
the target "AAPL" there. -/
theorem C8_counterexample :
    strContains (sUpper "OTM_small_AAPL") (sUpper "AAPL") = true ∧
    retailMatchMulti "OTM_small_AAPL" "AAPL" = false := by
  constructor <;> decide

/-- C8 (amended): the case-insensitive substring rule holds on the
single-security retail extraction path; the options extraction paths
accept "OTM_small_AAPL" for target "AAPL" via the last-underscore-segment
rule; but the multi-security retail path requires exact case-insensitive
equality and rejects "OTM_small_AAPL" for "AAPL". -/
theorem C8_theorem :
    (∀ key target : String, strContains (sUpper key) (sUpper target) = true →
      retailMatchSingle key target = true) ∧
    optionsKeyMatches "OTM_small_AAPL" "AAPL" = true ∧
    optionsKeyMatchesSingle "OTM_small_AAPL" "AAPL" = true ∧
    retailMatchSingle "OTM_small_AAPL" "AAPL" = true ∧
    retailMatchMulti "OTM_small_AAPL" "AAPL" = false := by
  refine ⟨fun key target h => ?_, by decide, by decide, by decide, by decide⟩
  simp only [retailMatchSingle, h, Bool.or_true]

/-- C8 witness: the substring clause of `C8_theorem` at a concrete input. -/
theorem C8_witness : retailMatchSingle "small_aapl" "AAPL" = true :=
  C8_theorem.1 "small_aapl" "AAPL" (by decide)

/-- C10: with a non-empty auth token, `fetch_stock_flow_data` with
transaction type "combined" returns the status "success" for every
behaviour of the HTTP oracle; with every request failing the returned
data equals the data returned when every request yields an empty body
(both empty), so a fetch failure is indistinguishable from absence of
data. -/
theorem C10_theorem :
    ∀ (token : String) (tickers : List String) (http : String → Option RawSeries),
    token ≠ "" →
    (fetch_stock_flow_data token tickers "combined" http).2 = "success" ∧
    (fetch_stock_flow_data token tickers "combined" (fun _ => none)).1 = [] ∧
    (fetch_stock_flow_data token tickers "combined" (fun _ => some [])).1 = [] := by
  intro token tickers http htok
  refine ⟨?_, ?_, ?_⟩
  · simp [fetch_stock_flow_data, htok]
  · simp only [fetch_stock_flow_data, htok, if_false, if_pos rfl, reduceIte]
    exact foldl_const tickers []
  · simp only [fetch_stock_flow_data, htok, if_false, if_pos rfl, reduceIte, ne_eq,
      not_true_eq_false]
    exact foldl_const tickers []

/-- C10 witness: `C10_theorem` at a concrete token and ticker list. -/
theorem C10_witness :
    (fetch_stock_flow_data "token123" ["AAPL", "MSFT"] "combined" (fun _ => none)).2 =
      "success" ∧
    (fetch_stock_flow_data "token123" ["AAPL", "MSFT"] "combined" (fun _ => none)).1 = [] ∧
    (fetch_stock_flow_data "token123" ["AAPL", "MSFT"] "combined" (fun _ => some [])).1 = [] :=
  C10_theorem "token123" ["AAPL", "MSFT"] (fun _ => none) (by decide)

end FlowTracker

namespace FlowTracker

/-- Membership in the zero-fill union of two key sets. -/
theorem mem_unionKeys {a b : DateMap} {d : String} :
    d ∈ unionKeys a b ↔ d ∈ dmKeys a ∨ d ∈ dmKeys b := by
  simp [unionKeys, List.mem_dedup, List.mem_append]

/-- Looking up a key of a graph-style association list yields the
function value. -/
theorem lookup_map_graph (l : List String) (g : String → Rat) {d : String}
    (h : d ∈ l) : List.lookup d (l.map fun x => (x, g x)) = some (g d) := by
  induction l with
  | nil => cases h
  | cons x t ih =>
    simp only [List.map_cons, List.lookup]
    by_cases hx : d = x
    · subst hx; simp
    · have : (d == x) = false := beq_false_of_ne hx
      rw [this]
      exact ih ((List.mem_cons.1 h).resolve_left hx)

/-- A key outside the key set of a mapping looks up to `none`. -/
theorem lookup_eq_none_of_not_mem_keys {m : DateMap} {d : String}
    (h : d ∉ dmKeys m) : List.lookup d m = none := by
  induction m with
  | nil => rfl
  | cons kv t ih =>
    simp only [dmKeys, List.map_cons, List.mem_cons, not_or] at h
    simp only [List.lookup, beq_false_of_ne h.1]
    exact ih (by simpa [dmKeys] using h.2)

/-- The key set of a zero-fill union is the deduplicated union. -/
theorem dmKeys_reconcileUnion (a b : DateMap) (f : Rat → Rat → Rat) :
    dmKeys (reconcileUnion a b f) = unionKeys a b := by
  simp [dmKeys, reconcileUnion, List.map_map, Function.comp_def]

/-- The zero-fill union evaluates to the combine of the zero-filled gets. -/
theorem dmGet_reconcileUnion {a b : DateMap} (f : Rat → Rat → Rat) {d : String}
    (h : d ∈ unionKeys a b) :
    dmGet (reconcileUnion a b f) d = f (dmGet a d) (dmGet b d) := by
  simp only [dmGet, reconcileUnion, lookup_map_graph _ _ h, Option.getD_some]

/-- C1: the union-with-zero-fill operation yields exactly the union of the
two input date sets; a date present in only one input combines its value
with 0 for the missing side; and the per-ticker body of
`calculate_net_premium_multi` is the instance at subtraction (a date
present only in the call series yields `net = call_value - 0`). -/
theorem C1_theorem :
    ∀ (a b : DateMap) (f : Rat → Rat → Rat) (d t : String),
    (d ∈ dmKeys (reconcileUnion a b f) ↔ d ∈ dmKeys a ∨ d ∈ dmKeys b) ∧
    (d ∈ dmKeys a → d ∉ dmKeys b →
      dmGet (reconcileUnion a b f) d = f (dmGet a d) 0) ∧
    (d ∉ dmKeys a → d ∈ dmKeys b →
      dmGet (reconcileUnion a b f) d = f 0 (dmGet b d)) ∧
    netFromMaps a b t = (reconcileUnion a b (fun x y => x - y)).map
      (fun dv => ⟨dv.1, t, dv.2, dmGet a dv.1, dmGet b dv.1⟩) := by
  intro a b f d t
  refine ⟨?_, ?_, ?_, ?_⟩
  · rw [dmKeys_reconcileUnion]; exact mem_unionKeys
  · intro hda hdb
    rw [dmGet_reconcileUnion f (mem_unionKeys.2 (Or.inl hda))]
    have : dmGet b d = 0 := by
      simp [dmGet, lookup_eq_none_of_not_mem_keys hdb]
    rw [this]
  · intro hda hdb
    rw [dmGet_reconcileUnion f (mem_unionKeys.2 (Or.inr hdb))]
    have : dmGet a d = 0 := by
      simp [dmGet, lookup_eq_none_of_not_mem_keys hda]
    rw [this]
  · simp only [netFromMaps, reconcileUnion, List.map_map, Function.comp_def]

/-- C1 witness: `C1_theorem` at concrete one-date mappings. -/
theorem C1_witness :
    dmGet (reconcileUnion [("2024-01-01", (5:Rat))] [("2024-01-02", (7:Rat))]
        (fun x y => x + y)) "2024-01-01" =
      (fun x y => x + y) (dmGet [("2024-01-01", (5:Rat))] "2024-01-01") 0 :=
  (C1_theorem [("2024-01-01", (5:Rat))] [("2024-01-02", (7:Rat))]
    (fun x y => x + y) "2024-01-01" "AAPL").2.1 (by decide) (by decide)

end FlowTracker

namespace FlowTracker

/-- `getD` of a map over `List.range`. -/
theorem getD_map_range (n i : Nat) (g : Nat → Rat) (h : i < n) :
    ((List.range n).map g).getD i 0 = g i := by
  rw [List.getD_eq_getElem?_getD, List.getElem?_map, List.getElem?_range h]
  rfl

/-- C6: at every index where the 21-period trailing mean (min periods 1)
is exactly 0 the MA ratio is exactly 1 (via `replace(0, nan)` then
`fillna(1)`); at every other index it is the 5-period trailing mean over
the 21-period trailing mean. -/
theorem C6_theorem :
    ∀ (xs : List Rat) (i : Nat), i < xs.length →
    (maRatio xs).getD i 0 =
      if mean (windowSlice xs 21 i) = 0 then 1
      else mean (windowSlice xs 5 i) / mean (windowSlice xs 21 i) := by
  intro xs i h
  rw [maRatio, getD_map_range _ _ _ h]
  by_cases h21 : mean (windowSlice xs 21 i) = 0
  · simp [replaceZeroNan, divNan, fillna1, h21]
  · simp [replaceZeroNan, divNan, fillna1, h21]

/-- C6 witness: `C6_theorem` on the series `[2, -2]`, whose 21-period
trailing mean at index 1 is exactly 0, giving MA ratio 1. -/
theorem C6_witness : (maRatio [(2:Rat), -2]).getD 1 0 = 1 := by
  rw [C6_theorem [(2:Rat), -2] 1 (by decide)]
  with_unfolding_all decide

/-- Counting values below a smaller threshold yields at most as many. -/
theorem filter_le_length_mono (l : List Rat) {a b : Rat} (hab : a ≤ b) :
    (l.filter (fun v => v ≤ a)).length ≤ (l.filter (fun v => v ≤ b)).length := by
  rw [← List.countP_eq_length_filter, ← List.countP_eq_length_filter]
  exact List.countP_mono_left fun x _ hx => by
    simpa using le_trans (by simpa using hx) hab

/-- C9: on an ascending-sorted series, the percentile of the element at a
smaller index is at most that at a larger index, and every such
percentile lies in [0, 100]. -/
theorem C9_theorem :
    ∀ (xs : List Rat), List.Sorted (· ≤ ·) xs →
    ∀ i j : Nat, i ≤ j → j < xs.length →
    percentile xs (xs.getD i 0) ≤ percentile xs (xs.getD j 0) ∧
    0 ≤ percentile xs (xs.getD i 0) ∧ percentile xs (xs.getD i 0) ≤ 100 := by
  intro xs hs i j hij hj
  have hi : i < xs.length := lt_of_le_of_lt hij hj
  have hn : (0:Rat) < xs.length := by
    exact_mod_cast Nat.pos_of_ne_zero (by omega)
  have hgets : xs.getD i 0 ≤ xs.getD j 0 := by
    have h1 : xs.getD i 0 = xs.get ⟨i, hi⟩ := by
      rw [List.getD_eq_getElem?_getD, List.getElem?_eq_getElem hi]; rfl
    have h2 : xs.getD j 0 = xs.get ⟨j, hj⟩ := by
      rw [List.getD_eq_getElem?_getD, List.getElem?_eq_getElem hj]; rfl
    rw [h1, h2]
    exact hs.rel_get_of_le hij
  refine ⟨?_, ?_, ?_⟩
  · unfold percentile
    have hc : ((xs.filter (fun v => v ≤ xs.getD i 0)).length : Rat) ≤
        ((xs.filter (fun v => v ≤ xs.getD j 0)).length : Rat) := by
      exact_mod_cast filter_le_length_mono xs hgets
    gcongr
  · unfold percentile
    positivity
  · unfold percentile
    have hcount : ((xs.filter (fun v => v ≤ xs.getD i 0)).length : Rat) ≤ xs.length := by
      exact_mod_cast List.length_filter_le _ xs
    have h1 : ((xs.filter (fun v => v ≤ xs.getD i 0)).length : Rat) / xs.length ≤ 1 :=
      (div_le_one hn).2 hcount
    nlinarith [h1]

/-- C9 witness: `C9_theorem` on the sorted series `[1, 2, 3]`. -/
theorem C9_witness :
    percentile [(1:Rat), 2, 3] (([(1:Rat), 2, 3]).getD 0 0) ≤
      percentile [(1:Rat), 2, 3] (([(1:Rat), 2, 3]).getD 2 0) ∧
    0 ≤ percentile [(1:Rat), 2, 3] (([(1:Rat), 2, 3]).getD 0 0) ∧
    percentile [(1:Rat), 2, 3] (([(1:Rat), 2, 3]).getD 0 0) ≤ 100 :=
  C9_theorem [1, 2, 3] (by with_unfolding_all decide) 0 2 (by decide) (by decide)

end FlowTracker

namespace FlowTracker

/-- Membership in the zero-fill union is symmetric in the two inputs. -/
theorem mem_unionKeys_comm {a b : DateMap} {d : String} :
    d ∈ unionKeys a b ↔ d ∈ unionKeys b a := by
  simp only [mem_unionKeys]; exact or_comm

/-- Swap the call and put fields of a net-premium record and negate its
value. -/
def negSwap (r : NetRec) : NetRec :=
  ⟨r.date, r.ticker, -r.value, r.put_value, r.call_value⟩

/-- C7: swapping the call and put inputs of the net-premium calculation
produces records for exactly the same (ticker, date) pairs with every
value negated and the call/put component fields exchanged. -/
theorem C7_theorem :
    ∀ (callData putData : RawSeries) (tickerList : List String) (r : NetRec),
    r ∈ calculate_net_premium_multi callData putData tickerList ↔
    negSwap r ∈ calculate_net_premium_multi putData callData tickerList := by
  intro c p L r
  simp only [calculate_net_premium_multi, netFromMaps, List.mem_flatMap, List.mem_map]
  constructor
  · rintro ⟨t, ht, d, hd, rfl⟩
    refine ⟨t, ht, d, mem_unionKeys_comm.1 hd, ?_⟩
    simp only [negSwap, NetRec.mk.injEq, neg_sub, true_and, and_true]
  · rintro ⟨t, ht, d, hd, hEq⟩
    refine ⟨t, ht, d, mem_unionKeys_comm.1 hd, ?_⟩
    cases r with
    | mk rd rt rv rc rp =>
      simp only [negSwap, NetRec.mk.injEq] at hEq ⊢
      obtain ⟨h1, h2, h3, h4, h5⟩ := hEq
      exact ⟨h1, h2, by linarith, h5, h4⟩

end FlowTracker

namespace FlowTracker

/-- The mean of a non-empty constant list is the constant. -/
theorem mean_replicate {k : Nat} (c : Rat) (hk : k ≠ 0) :
    mean (List.replicate k c) = c := by
  simp only [mean, List.sum_replicate, List.length_replicate, nsmul_eq_mul]
  exact mul_div_cancel_left₀ c (Nat.cast_ne_zero.2 hk)

/-- The sample variance of a constant list is 0. -/
theorem sampleVar_replicate (k : Nat) (c : Rat) :
    sampleVar (List.replicate k c) = 0 := by
  cases k with
  | zero => simp [sampleVar]
  | succ m =>
    simp only [sampleVar, mean_replicate c (Nat.succ_ne_zero m), List.map_replicate,
      sub_self, ne_eq, OfNat.ofNat_ne_zero, not_false_eq_true, zero_pow,
      List.sum_replicate, smul_zero, zero_div]

/-- A trailing window of a constant series is a constant list. -/
theorem windowSlice_replicate (n w i : Nat) (c : Rat) :
    windowSlice (List.replicate n c) w i =
      List.replicate (min (i + 1) n - (i + 1 - w)) c := by
  simp [windowSlice, List.take_replicate, List.drop_replicate]

/-- `getD` on a constant list. -/
theorem getD_replicate {n i : Nat} (c : Rat) (h : i < n) :
    (List.replicate n c).getD i 0 = c := by
  rw [List.getD_eq_getElem?_getD, List.getElem?_replicate, if_pos h]
  rfl

/-- C3: on a constant-valued series of any length, for any window
parameter, the Z-score calculation returns a series of the same length
that is all zeros (length-1 series included), for any square-root
function with `sq 0 = 0`. -/
theorem C3_theorem :
    ∀ (sq : Rat → Rat), sq 0 = 0 →
    ∀ (n : Nat) (c : Rat) (window : Option Nat),
    calculate_z_scores sq (List.replicate n c) window =
      List.replicate n (FVal.fin 0) := by
  intro sq hsq n c w
  by_cases hn : n ≤ 1
  · simp [calculate_z_scores, hn]
  · push_neg at hn
    simp only [calculate_z_scores, List.length_replicate]
    rw [if_neg (by omega)]
    by_cases hw : w.getD 0 ≠ 0 ∧ w.getD 0 ≤ n
    · rw [if_pos hw]
      refine List.eq_replicate_iff.2 ⟨by simp, ?_⟩
      intro b hb
      simp only [List.mem_map, List.mem_range] at hb
      obtain ⟨i, hi, rfl⟩ := hb
      rw [windowSlice_replicate]
      by_cases h2 : 2 ≤ min (i + 1) n - (i + 1 - w.getD 0)
      · rw [if_pos (by rw [List.length_replicate]; exact h2)]
        rw [sampleVar_replicate, hsq, getD_replicate c hi,
          mean_replicate c (by omega)]
        simp [zEntry]
      · rw [if_neg (by rw [List.length_replicate]; exact h2)]
        simp [zEntry]
    · rw [if_neg hw]
      rw [sampleVar_replicate, hsq]
      simp

/-- C3 witness: `C3_theorem` on a constant series of length 3 with a
rolling window of 2 and the square root sent to a function vanishing
at 0. -/
theorem C3_witness :
    calculate_z_scores (fun _ => 0) (List.replicate 3 (5:Rat)) (some 2) =
      List.replicate 3 (FVal.fin 0) :=
  C3_theorem (fun _ => 0) rfl 3 5 (some 2)

end FlowTracker

namespace FlowTracker

/-- C2: a (ticker, date) record is emitted by the combined-flow
calculation iff the ticker is in the requested list and the date appears
in at least one of the five reconciled component mappings for that
ticker; and every emitted record's value equals
`retail(d,0) + (small_call(d,0) - small_put(d,0)) +
(large_call(d,0) - large_put(d,0))`. -/
theorem C2_theorem :
    ∀ (retailFlow smallCall smallPut largeCall largePut : RawSeries)
      (tickerList : List String) (t d : String),
    ((∃ r ∈ calculate_combined_flow_multi retailFlow smallCall smallPut
        largeCall largePut tickerList, r.ticker = t ∧ r.date = d) ↔
      (t ∈ tickerList ∧
        (d ∈ dmKeys (retailForMulti retailFlow t) ∨
         d ∈ dmKeys (aggregate smallCall (sUpper t)) ∨
         d ∈ dmKeys (aggregate smallPut (sUpper t)) ∨
         d ∈ dmKeys (aggregate largeCall (sUpper t)) ∨
         d ∈ dmKeys (aggregate largePut (sUpper t))))) ∧
    (∀ r ∈ calculate_combined_flow_multi retailFlow smallCall smallPut
        largeCall largePut tickerList,
      r.value = dmGet (retailForMulti retailFlow r.ticker) r.date +
        (dmGet (aggregate smallCall (sUpper r.ticker)) r.date -
         dmGet (aggregate smallPut (sUpper r.ticker)) r.date) +
        (dmGet (aggregate largeCall (sUpper r.ticker)) r.date -
         dmGet (aggregate largePut (sUpper r.ticker)) r.date)) := by
  intro rf sc sp lc lp L t d
  constructor
  · constructor
    · rintro ⟨r, hr, ht, hd⟩
      simp only [calculate_combined_flow_multi, List.mem_flatMap, List.mem_map,
        List.mem_dedup, List.mem_append] at hr
      obtain ⟨t', ht', d', hd', hEq⟩ := hr
      subst hEq
      simp only [FlowRec.mk.injEq] at ht hd  -- no-op safeguard
      cases ht
      cases hd
      exact ⟨ht', by tauto⟩
    · rintro ⟨htL, hmem⟩
      refine ⟨⟨d, t, dmGet (retailForMulti rf t) d +
        (dmGet (aggregate sc (sUpper t)) d - dmGet (aggregate sp (sUpper t)) d) +
        (dmGet (aggregate lc (sUpper t)) d - dmGet (aggregate lp (sUpper t)) d)⟩,
        ?_, rfl, rfl⟩
      simp only [calculate_combined_flow_multi, List.mem_flatMap, List.mem_map,
        List.mem_dedup, List.mem_append]
      exact ⟨t, htL, d, by tauto, rfl⟩
  · intro r hr
    simp only [calculate_combined_flow_multi, List.mem_flatMap, List.mem_map,
      List.mem_dedup, List.mem_append] at hr
    obtain ⟨t', ht', d', hd', hEq⟩ := hr
    subst hEq
    rfl

end FlowTracker

namespace FlowTracker

/-- C2 witness: `C2_theorem` on the end-to-end scenario — retail
`{2024-01-01: 100, 2024-01-02: -50}`, small-call `{2024-01-02: 30}`,
large-put `{2024-01-01: 20}` for ticker AAPL; the emitted record for
2024-01-01 carries value 80 = 100 + (0-0) + (0-20). -/
theorem C2_witness :
    (FlowRec.mk "2024-01-01" "AAPL" 80).value =
      dmGet (retailForMulti
          [("AAPL", [("2024-01-01", (100:Rat)), ("2024-01-02", -50)])] "AAPL")
        "2024-01-01" +
      (dmGet (aggregate [("AAPL", [("2024-01-02", (30:Rat))])] (sUpper "AAPL"))
          "2024-01-01" -
        dmGet (aggregate [] (sUpper "AAPL")) "2024-01-01") +
      (dmGet (aggregate [] (sUpper "AAPL")) "2024-01-01" -
        dmGet (aggregate [("AAPL", [("2024-01-01", (20:Rat))])] (sUpper "AAPL"))
          "2024-01-01") :=
  (C2_theorem [("AAPL", [("2024-01-01", (100:Rat)), ("2024-01-02", -50)])]
    [("AAPL", [("2024-01-02", (30:Rat))])] [] []
    [("AAPL", [("2024-01-01", (20:Rat))])] ["AAPL"] "AAPL" "2024-01-01").2
    (FlowRec.mk "2024-01-01" "AAPL" 80) (by with_unfolding_all decide)

end FlowTracker
